import Mathlib

/-!
Verification development for the swift-ink-stroke-modeler repository.

The repository's single source file is the C FFI header
`src/Sources/InkStrokeModelerFFI/include/InkStrokeModelerFFI.h`, which declares
the data model (status codes, event types, parameter structs, input and result
records) and the operation surface (`ism_modeler_create`, `ism_modeler_reset_with_params`,
`ism_modeler_reset`, `ism_modeler_update`, `ism_modeler_predict`, `ism_modeler_save`,
`ism_modeler_restore`).  The modeling implementation those functions front is not
part of the repository sources, so the behaviour of the operations is modelled
from the specification (spec.md); each such definition carries a doc comment
starting with `Modelled from the spec:`.  Numeric quantities (C float/double)
are embedded as rationals, and machine integers (int32_t) as Int.
-/

/-- Status codes, mirroring the `ism_Status` enum of the header. -/
inductive ism_Status where
  | ISM_STATUS_OK
  | ISM_STATUS_INVALID_ARGUMENT
  | ISM_STATUS_FAILED_PRECONDITION
  | ISM_STATUS_OUT_OF_RANGE
  | ISM_STATUS_INTERNAL
deriving DecidableEq

/-- Event types, mirroring the `ism_EventType` enum of the header. -/
inductive ism_EventType where
  | ISM_EVENT_DOWN
  | ISM_EVENT_MOVE
  | ISM_EVENT_UP
deriving DecidableEq

/-- Prediction strategy selector, mirroring the `ism_PredictionKind` enum of the
header (three enumerators: stroke-end, Kalman, disabled). -/
inductive ism_PredictionKind where
  | ISM_PREDICTION_STROKE_END
  | ISM_PREDICTION_KALMAN
  | ISM_PREDICTION_DISABLED
deriving DecidableEq

/-- Two-dimensional vector, mirroring `ism_Vec2`. -/
structure ism_Vec2 where
  x : ℚ
  y : ℚ
deriving DecidableEq

/-- Wobble smoother parameters, mirroring `ism_WobbleSmootherParams`. -/
structure ism_WobbleSmootherParams where
  is_enabled : Bool
  timeout : ℚ
  speed_floor : ℚ
  speed_ceiling : ℚ
deriving DecidableEq

/-- Loop contraction mitigation parameters, mirroring
`ism_LoopContractionMitigationParameters`. -/
structure ism_LoopContractionMitigationParameters where
  is_enabled : Bool
  speed_lower_bound : ℚ
  speed_upper_bound : ℚ
  interpolation_strength_at_speed_lower_bound : ℚ
  interpolation_strength_at_speed_upper_bound : ℚ
  min_speed_sampling_window : ℚ
deriving DecidableEq

/-- Position model parameters, mirroring `ism_PositionModelerParams`. -/
structure ism_PositionModelerParams where
  spring_mass_constant : ℚ
  drag_constant : ℚ
  loop : ism_LoopContractionMitigationParameters
deriving DecidableEq

/-- Sampling parameters, mirroring `ism_SamplingParams`. -/
structure ism_SamplingParams where
  min_output_rate : ℚ
  end_of_stroke_stopping_distance : ℚ
  end_of_stroke_max_iterations : Int
  max_outputs_per_call : Int
  max_estimated_angle_to_traverse_per_input : ℚ
deriving DecidableEq

/-- Stylus state modeling parameters, mirroring `ism_StylusStateModelerParams`. -/
structure ism_StylusStateModelerParams where
  use_stroke_normal_projection : Bool
deriving DecidableEq

/-- Kalman confidence parameters, mirroring `ism_KalmanConfidenceParams`. -/
structure ism_KalmanConfidenceParams where
  desired_number_of_samples : Int
  max_estimation_distance : ℚ
  min_travel_speed : ℚ
  max_travel_speed : ℚ
  max_linear_deviation : ℚ
  baseline_linearity_confidence : ℚ
deriving DecidableEq

/-- Kalman predictor parameters, mirroring `ism_KalmanPredictorParams`. -/
structure ism_KalmanPredictorParams where
  process_noise : ℚ
  measurement_noise : ℚ
  min_stable_iteration : Int
  max_time_samples : Int
  min_catchup_velocity : ℚ
  acceleration_weight : ℚ
  jerk_weight : ℚ
  prediction_interval : ℚ
  confidence : ism_KalmanConfidenceParams
deriving DecidableEq

/-- Prediction parameters, mirroring `ism_PredictionParams`: a kind selector plus
the Kalman sub-struct, which the header notes is used when
`kind == ISM_PREDICTION_KALMAN`. -/
structure ism_PredictionParams where
  kind : ism_PredictionKind
  kalman : ism_KalmanPredictorParams
deriving DecidableEq

/-- Full parameter set, mirroring `ism_StrokeModelParams`. -/
structure ism_StrokeModelParams where
  wobble : ism_WobbleSmootherParams
  position : ism_PositionModelerParams
  sampling : ism_SamplingParams
  stylus_state : ism_StylusStateModelerParams
  prediction : ism_PredictionParams
deriving DecidableEq

/-- Input event, mirroring `ism_Input`. -/
structure ism_Input where
  event_type : ism_EventType
  position : ism_Vec2
  time : ℚ
  pressure : ℚ
  tilt : ℚ
  orientation : ℚ
deriving DecidableEq

/-- Output record, mirroring `ism_Result`. -/
structure ism_Result where
  position : ism_Vec2
  velocity : ism_Vec2
  acceleration : ism_Vec2
  time : ℚ
  pressure : ℚ
  tilt : ℚ
  orientation : ℚ
deriving DecidableEq

/-- Component-wise vector addition. -/
def vadd (a b : ism_Vec2) : ism_Vec2 := ⟨a.x + b.x, a.y + b.y⟩

/-- Component-wise vector subtraction. -/
def vsub (a b : ism_Vec2) : ism_Vec2 := ⟨a.x - b.x, a.y - b.y⟩

/-- Scalar multiplication of a vector. -/
def vscale (c : ℚ) (a : ism_Vec2) : ism_Vec2 := ⟨c * a.x, c * a.y⟩

/-- Squared Euclidean distance between two points.  The model works over the
rationals, so magnitude comparisons are carried out on squares. -/
def dist2 (a b : ism_Vec2) : ℚ := (a.x - b.x) ^ 2 + (a.y - b.y) ^ 2

/-- Linear ramp from 0 at `lo` to 1 at `hi`, clamped outside the interval. -/
def blend01 (lo hi v : ℚ) : ℚ :=
  if v ≤ lo then 0 else if hi ≤ v then 1 else (v - lo) / (hi - lo)

/-- Physical state of the simulated pen: position, velocity, acceleration and
the time they are produced for (spec section 3, "Physical state"). -/
structure PhysState where
  position : ism_Vec2
  velocity : ism_Vec2
  acceleration : ism_Vec2
  time : ℚ
deriving DecidableEq

/-- Modelled from the spec: the WobbleSmoother window prune (spec 4.1) — the
sliding window keeps only samples within `timeout` of the current time.  The
smoother implementation is not under src/. -/
def wobblePrune (timeout t : ℚ) (w : List (ism_Vec2 × ℚ)) : List (ism_Vec2 × ℚ) :=
  w.filter (fun s => decide (t - s.2 ≤ timeout))

/-- Modelled from the spec: the WobbleSmoother window average (spec 4.1). -/
def wobbleAvg (w : List (ism_Vec2 × ℚ)) : ism_Vec2 :=
  if w.length = 0 then ⟨0, 0⟩
  else vscale (1 / (w.length : ℚ)) (w.foldr (fun s acc => vadd s.1 acc) ⟨0, 0⟩)

/-- Modelled from the spec: one WobbleSmoother step (spec 4.1).  Disabled means
identity passthrough.  Enabled: the new sample joins the pruned window, the
window average is blended with the raw position by a weight that ramps from 0
(smoothed dominates) at or below `speed_floor` to 1 (raw dominates) at or above
`speed_ceiling`; speed is measured by squared magnitude against squared
thresholds, the rational-arithmetic stand-in for the Euclidean magnitude.
Returns the smoothed position and the new window; the implementation is not
under src/. -/
def wobbleUpdate (wp : ism_WobbleSmootherParams) (w : List (ism_Vec2 × ℚ))
    (raw : ism_Vec2) (t : ℚ) : ism_Vec2 × List (ism_Vec2 × ℚ) :=
  if wp.is_enabled = false then (raw, w)
  else
    let w1 := (raw, t) :: wobblePrune wp.timeout t w
    let sp2 :=
      match w with
      | [] => 0
      | (q, tq) :: _ => if t = tq then 0 else dist2 raw q / (t - tq) ^ 2
    let avg := wobbleAvg w1
    let weight := blend01 (wp.speed_floor ^ 2) (wp.speed_ceiling ^ 2) sp2
    (vadd avg (vscale weight (vsub raw avg)), w1)

/-- Modelled from the spec: the loop-contraction interpolation strength
(spec 4.2).  Disabled means constant strength 1; enabled pins the strength to
the lower-bound value at or below `speed_lower_bound`, to the upper-bound value
at or above `speed_upper_bound`, and interpolates linearly between; speed enters
as a squared magnitude compared against squared bounds.  The implementation is
not under src/. -/
def loopStrength (lp : ism_LoopContractionMitigationParameters) (sp2 : ℚ) : ℚ :=
  if lp.is_enabled = false then 1
  else
    lp.interpolation_strength_at_speed_lower_bound +
      blend01 (lp.speed_lower_bound ^ 2) (lp.speed_upper_bound ^ 2) sp2 *
        (lp.interpolation_strength_at_speed_upper_bound -
          lp.interpolation_strength_at_speed_lower_bound)

/-- Modelled from the spec: one PositionModeler step (spec 4.2) — a damped
spring-mass pull toward the (strength-modulated) target, integrated over `dt`,
advancing the state's time by `dt`.  The implementation is not under src/. -/
def modelStep (pp : ism_PositionModelerParams) (target : ism_Vec2) (dt : ℚ)
    (st : PhysState) : PhysState :=
  let strength := loopStrength pp.loop (st.velocity.x ^ 2 + st.velocity.y ^ 2)
  let pull := vadd st.position (vscale strength (vsub target st.position))
  let acc := vsub (vscale pp.spring_mass_constant (vsub pull st.position))
      (vscale pp.drag_constant st.velocity)
  let vel := vadd st.velocity (vscale dt acc)
  ⟨vadd st.position (vscale dt vel), vel, acc, st.time + dt⟩

/-- Modelled from the spec: `n` equally spaced PositionModeler steps (spec 4.3).
Returns the final state and the list of intermediate states, oldest first. -/
def modelSteps (pp : ism_PositionModelerParams) (target : ism_Vec2) (dt : ℚ)
    (st : PhysState) : Nat → PhysState × List PhysState
  | 0 => (st, [])
  | n + 1 =>
      let ms := modelSteps pp target dt (modelStep pp target dt st) n
      (ms.1, modelStep pp target dt st :: ms.2)

/-- Modelled from the spec: the end-of-stroke settling iteration (spec 4.3) —
up to the given number of extra steps toward the target, terminating early once
positional movement per step falls below the stopping distance (compared on
squares, `stop2` being the squared stopping distance). -/
def endOfStrokeSteps (pp : ism_PositionModelerParams) (target : ism_Vec2)
    (dt stop2 : ℚ) (st : PhysState) : Nat → PhysState × List PhysState
  | 0 => (st, [])
  | n + 1 =>
      let st1 := modelStep pp target dt st
      if dist2 st1.position st.position < stop2 then (st, [])
      else
        let ms := endOfStrokeSteps pp target dt stop2 st1 n
        (ms.1, st1 :: ms.2)

/-- Modelled from the spec: interpolation of one stylus channel (spec 4.4) —
the sentinel −1 for "unknown" propagates and is never interpolated against. -/
def stylusChannel (a b frac : ℚ) : ℚ :=
  if a = -1 ∨ b = -1 then -1 else a + frac * (b - a)

/-- Modelled from the spec: the stylus progress fraction for one produced state
(spec 4.4) — either the fraction of elapsed time between the bracketing raw
inputs, or, under `use_stroke_normal_projection`, the projection of the produced
position onto the raw-input segment; clamped to [0, 1]. -/
def stylusFrac (sp : ism_StylusStateModelerParams) (seg0 seg1 : ism_Vec2)
    (t0 t1 : ℚ) (ph : PhysState) : ℚ :=
  if sp.use_stroke_normal_projection then
    let d := vsub seg1 seg0
    let den := d.x ^ 2 + d.y ^ 2
    if den = 0 then 1
    else max 0 (min 1 (((ph.position.x - seg0.x) * d.x + (ph.position.y - seg0.y) * d.y) / den))
  else if t1 = t0 then 1
  else max 0 (min 1 ((ph.time - t0) / (t1 - t0)))

/-- Builds one `ism_Result` from a physical state plus stylus channel values;
the result's time is the physical state's time. -/
def mkResult (ph : PhysState) (pr ti orn : ℚ) : ism_Result :=
  ⟨ph.position, ph.velocity, ph.acceleration, ph.time, pr, ti, orn⟩

/-- Per-stroke session state: the committed physical state, the last raw input
position (the anchor the model keeps pulling toward), the last raw stylus
channel values, the wobble-smoother window, and the Kalman predictor's sample
history (spec section 3, "Snapshot": the full session state including smoother
and predictor internal buffers). -/
structure StrokeState where
  phys : PhysState
  anchorPos : ism_Vec2
  lastRawPressure : ℚ
  lastRawTilt : ℚ
  lastRawOrientation : ℚ
  wobbleWindow : List (ism_Vec2 × ℚ)
  kalmanHistory : List (ism_Vec2 × ℚ)
deriving DecidableEq

/-- Modelled from the spec: the Kalman predictor's bounded sample history
(spec 4.6, `max_time_samples`).  The history is only maintained when the Kalman
strategy is selected; the header notes the `kalman` sub-struct is used when
`kind == ISM_PREDICTION_KALMAN`. -/
def pushHistory (p : ism_StrokeModelParams) (pos : ism_Vec2) (t : ℚ)
    (h : List (ism_Vec2 × ℚ)) : List (ism_Vec2 × ℚ) :=
  if p.prediction.kind = .ISM_PREDICTION_KALMAN then
    ((pos, t) :: h).take p.prediction.kalman.max_time_samples.toNat
  else h

/-- Modelled from the spec: the number of simulated steps between two raw
inputs (spec 4.3) — enough for the output rate to be at least
`min_output_rate`, at least one, and capped so that the outputs produced by one
Update call do not exceed `max_outputs_per_call`.  The angle-based subdivision
(`max_estimated_angle_to_traverse_per_input`) requires transcendental
arithmetic and is modelled in its disabled (−1) configuration. -/
def numSteps (sp : ism_SamplingParams) (t0 t1 : ℚ) : Nat :=
  max 1 (min (Nat.ceil ((t1 - t0) * sp.min_output_rate)) sp.max_outputs_per_call.toNat)

/-- The smoothed target position for one raw input (the wobble smoother's
output, spec data flow: raw Input → WobbleSmoother → PositionModeler). -/
def moveTarget (p : ism_StrokeModelParams) (st : StrokeState) (inp : ism_Input) : ism_Vec2 :=
  (wobbleUpdate p.wobble st.wobbleWindow inp.position inp.time).1

/-- The wobble window after processing one raw input. -/
def moveWindow (p : ism_StrokeModelParams) (st : StrokeState) (inp : ism_Input) :
    List (ism_Vec2 × ℚ) :=
  (wobbleUpdate p.wobble st.wobbleWindow inp.position inp.time).2

/-- The time slice per simulated step for one raw input. -/
def moveDt (p : ism_StrokeModelParams) (st : StrokeState) (inp : ism_Input) : ℚ :=
  (inp.time - st.phys.time) / (numSteps p.sampling st.phys.time inp.time : ℚ)

/-- The simulated states produced for one MOVE (or the move part of an UP):
`numSteps` equally spaced PositionModeler steps toward the smoothed target. -/
def moveSteps (p : ism_StrokeModelParams) (st : StrokeState) (inp : ism_Input) :
    PhysState × List PhysState :=
  modelSteps p.position (moveTarget p st inp) (moveDt p st inp) st.phys
    (numSteps p.sampling st.phys.time inp.time)

/-- The extra settling states produced at stroke end (spec 4.3): end-of-stroke
iterations from the last move state toward the smoothed target, one step per
`1 / min_output_rate` of time. -/
def upSteps (p : ism_StrokeModelParams) (st : StrokeState) (inp : ism_Input) :
    PhysState × List PhysState :=
  endOfStrokeSteps p.position (moveTarget p st inp) (1 / p.sampling.min_output_rate)
    (p.sampling.end_of_stroke_stopping_distance ^ 2) (moveSteps p st inp).1
    p.sampling.end_of_stroke_max_iterations.toNat

/-- Results for a list of produced physical states: each state is paired with
stylus channels interpolated between the previous raw input's values and the
new raw input's values (spec 4.4). -/
def resultsFor (p : ism_StrokeModelParams) (st : StrokeState) (inp : ism_Input)
    (states : List PhysState) : List ism_Result :=
  states.map (fun ph =>
    let frac := stylusFrac p.stylus_state st.anchorPos inp.position st.phys.time inp.time ph
    mkResult ph (stylusChannel st.lastRawPressure inp.pressure frac)
      (stylusChannel st.lastRawTilt inp.tilt frac)
      (stylusChannel st.lastRawOrientation inp.orientation frac))

/-- Modelled from the spec: the per-stroke Update transition (spec 4.5).  The
first event of a stroke must be DOWN (MOVE/UP with no stroke in progress is a
failed precondition), DOWN while already in a stroke is a failed precondition,
out-of-order time is an invalid argument, and a successful MOVE/UP runs the
wobble → sampling → position → stylus pipeline; UP additionally settles the
model at stroke end and leaves the stroke.  Returns status, the in-stroke flag,
the stroke state, and the generated results.  The implementation is not under
src/. -/
def updateCore (p : ism_StrokeModelParams) (inStroke : Bool) (st : StrokeState)
    (inp : ism_Input) : ism_Status × Bool × StrokeState × List ism_Result :=
  if inp.event_type = .ISM_EVENT_DOWN then
    if inStroke then (.ISM_STATUS_FAILED_PRECONDITION, inStroke, st, [])
    else
      let ph : PhysState := ⟨inp.position, ⟨0, 0⟩, ⟨0, 0⟩, inp.time⟩
      (.ISM_STATUS_OK, true,
        ⟨ph, inp.position, inp.pressure, inp.tilt, inp.orientation, [],
          pushHistory p inp.position inp.time []⟩,
        [mkResult ph inp.pressure inp.tilt inp.orientation])
  else
    if inStroke then
      if inp.time ≤ st.phys.time then (.ISM_STATUS_INVALID_ARGUMENT, inStroke, st, [])
      else
        if inp.event_type = .ISM_EVENT_UP then
          (.ISM_STATUS_OK, false,
            ⟨(upSteps p st inp).1, inp.position, inp.pressure, inp.tilt, inp.orientation,
              moveWindow p st inp, pushHistory p inp.position inp.time st.kalmanHistory⟩,
            resultsFor p st inp ((moveSteps p st inp).2 ++ (upSteps p st inp).2))
        else
          (.ISM_STATUS_OK, true,
            ⟨(moveSteps p st inp).1, inp.position, inp.pressure, inp.tilt, inp.orientation,
              moveWindow p st inp, pushHistory p inp.position inp.time st.kalmanHistory⟩,
            resultsFor p st inp (moveSteps p st inp).2)
    else (.ISM_STATUS_FAILED_PRECONDITION, inStroke, st, [])

/-- Modelled from the spec: the Kalman extrapolation (spec 4.6) at the
interface level — from the newest history sample, project forward with the
velocity of the last two samples, producing `desired_number_of_samples` points
spaced `prediction_interval` apart; the filter internals are not under src/ and
the confidence-truncation threshold is modelled as zero (no truncation). -/
def kalmanExtrapolate (kp : ism_KalmanPredictorParams) (st : StrokeState) : List ism_Result :=
  match st.kalmanHistory with
  | [] => []
  | (pos1, t1) :: rest =>
      let v :=
        match rest with
        | [] => (⟨0, 0⟩ : ism_Vec2)
        | (pos0, t0) :: _ => if t1 = t0 then ⟨0, 0⟩ else vscale (1 / (t1 - t0)) (vsub pos1 pos0)
      (List.range kp.confidence.desired_number_of_samples.toNat).map (fun i =>
        let dt := ((i : ℚ) + 1) * kp.prediction_interval
        mkResult ⟨vadd pos1 (vscale dt v), v, ⟨0, 0⟩, t1 + dt⟩
          st.lastRawPressure st.lastRawTilt st.lastRawOrientation)

/-- Modelled from the spec: the predictor dispatch (spec 4.6).  Stroke-end
extrapolates a settling tail from the current state toward the anchor; Kalman
requires `min_stable_iteration` history samples before producing predictions
(before that it produces none) and otherwise extrapolates from its history;
disabled produces nothing.  A pure function of parameters and stroke state. -/
def predictCore (p : ism_StrokeModelParams) (st : StrokeState) : List ism_Result :=
  match p.prediction.kind with
  | .ISM_PREDICTION_STROKE_END =>
      let ms := endOfStrokeSteps p.position st.anchorPos (1 / p.sampling.min_output_rate)
        (p.sampling.end_of_stroke_stopping_distance ^ 2) st.phys
        p.sampling.end_of_stroke_max_iterations.toNat
      ms.2.map (fun ph => mkResult ph st.lastRawPressure st.lastRawTilt st.lastRawOrientation)
  | .ISM_PREDICTION_KALMAN =>
      if st.kalmanHistory.length < p.prediction.kalman.min_stable_iteration.toNat then []
      else kalmanExtrapolate p.prediction.kalman st
  | .ISM_PREDICTION_DISABLED => []

/-- A modeler session: the last successfully applied parameter set (none before
the first successful parameterized reset), whether a stroke is in progress, the
per-stroke state, and the single save/restore snapshot slot (spec section 3,
"Snapshot": at most one slot, last Save wins). -/
structure Session where
  params : Option ism_StrokeModelParams
  inStroke : Bool
  stroke : StrokeState
  saved : Option (Bool × StrokeState)
deriving DecidableEq

/-- The stroke state of a freshly created or reset session. -/
def initialStroke : StrokeState :=
  ⟨⟨⟨0, 0⟩, ⟨0, 0⟩, ⟨0, 0⟩, 0⟩, ⟨0, 0⟩, -1, -1, -1, [], []⟩

/-- Modelled from the spec: `ism_modeler_create` — a fresh session has no
parameters, no stroke in progress and no snapshot. -/
def ism_modeler_create : Session := ⟨none, false, initialStroke, none⟩

/-- Modelled from the spec: parameter validation at Reset (spec section 3
invariants): `min_output_rate > 0`, `end_of_stroke_stopping_distance > 0`,
`end_of_stroke_max_iterations` in (0, 1000], `max_outputs_per_call > 0`.  The
implementation is not under src/. -/
def validateParams (p : ism_StrokeModelParams) : Bool :=
  decide (0 < p.sampling.min_output_rate) &&
  decide (0 < p.sampling.end_of_stroke_stopping_distance) &&
  decide (0 < p.sampling.end_of_stroke_max_iterations) &&
  decide (p.sampling.end_of_stroke_max_iterations ≤ 1000) &&
  decide (0 < p.sampling.max_outputs_per_call)

/-- Modelled from the spec: `ism_modeler_reset_with_params` — eager validation
before any mutation (a failed call leaves the session exactly as it was); a
successful reset installs the parameters, clears the stroke state and clears
the snapshot slot. -/
def ism_modeler_reset_with_params (s : Session) (p : ism_StrokeModelParams) :
    ism_Status × Session :=
  if validateParams p then (.ISM_STATUS_OK, ⟨some p, false, initialStroke, none⟩)
  else (.ISM_STATUS_INVALID_ARGUMENT, s)

/-- Modelled from the spec: `ism_modeler_reset` — reinitializes stroke state
keeping the last successfully applied parameters; a failed precondition if no
prior successful parameterized reset exists. -/
def ism_modeler_reset (s : Session) : ism_Status × Session :=
  match s.params with
  | none => (.ISM_STATUS_FAILED_PRECONDITION, s)
  | some p => (.ISM_STATUS_OK, ⟨some p, false, initialStroke, none⟩)

/-- Modelled from the spec: the session-level Update (spec 4.5) — a failed
precondition before any successful parameterized reset, otherwise the
per-stroke transition; parameters and the snapshot slot are untouched. -/
def sessionUpdate (s : Session) (inp : ism_Input) :
    ism_Status × Session × List ism_Result :=
  match s.params with
  | none => (.ISM_STATUS_FAILED_PRECONDITION, s, [])
  | some p =>
      let u := updateCore p s.inStroke s.stroke inp
      (u.1, ⟨some p, u.2.1, u.2.2.1, s.saved⟩, u.2.2.2)

/-- Modelled from the spec: the session-level Predict — a failed precondition
before a reset or with no stroke in progress, otherwise the predictor's
results; a pure function of the session (the header: "fills results for the
current stroke without changing state"). -/
def sessionPredict (s : Session) : ism_Status × List ism_Result :=
  match s.params with
  | none => (.ISM_STATUS_FAILED_PRECONDITION, [])
  | some p =>
      if s.inStroke then (.ISM_STATUS_OK, predictCore p s.stroke)
      else (.ISM_STATUS_FAILED_PRECONDITION, [])

/-- Modelled from the spec: `ism_modeler_save` — captures the full per-stroke
session state (not the parameters) into the single snapshot slot; last Save
wins. -/
def ism_modeler_save (s : Session) : Session :=
  { s with saved := some (s.inStroke, s.stroke) }

/-- Modelled from the spec: `ism_modeler_restore` — applies the snapshot if one
exists and is a no-op otherwise (the header's restore returns no status). -/
def ism_modeler_restore (s : Session) : Session :=
  match s.saved with
  | none => s
  | some bs => { s with inStroke := bs.1, stroke := bs.2 }

/-- The FFI buffer write discipline (header comment on `ism_modeler_update`):
up to `cap` results are copied into the caller's buffer, entries beyond the
written prefix keep their previous contents. -/
def writeResults (buf rs : List ism_Result) (cap : Nat) : List ism_Result :=
  rs.take cap ++ buf.drop (rs.take cap).length

/-- The results generated by one session-level Update. -/
def updateResults (s : Session) (inp : ism_Input) : List ism_Result :=
  (sessionUpdate s inp).2.2

/-- The results generated by one session-level Predict. -/
def predictResults (s : Session) : List ism_Result :=
  (sessionPredict s).2

/-- Modelled from the spec: `ism_modeler_update` — status, the new session,
the caller's buffer after writing up to `max_results` results, and `out_count`
set to the total number of results generated (the header: may be greater than
`max_results`, in which case results are truncated). -/
def ism_modeler_update (s : Session) (inp : ism_Input) (buf : List ism_Result)
    (max_results : Nat) : ism_Status × Session × List ism_Result × Nat :=
  let u := sessionUpdate s inp
  (u.1, u.2.1, writeResults buf u.2.2 max_results, u.2.2.length)

/-- Modelled from the spec: `ism_modeler_predict` — like Update's buffer
discipline but leaving the session unchanged. -/
def ism_modeler_predict (s : Session) (buf : List ism_Result) (max_results : Nat) :
    ism_Status × Session × List ism_Result × Nat :=
  let r := sessionPredict s
  (r.1, s, writeResults buf r.2 max_results, r.2.length)

/-- Runs a list of inputs through successive session-level Updates, collecting
each call's status and results. -/
def updateTrace (s : Session) : List ism_Input → Session × List (ism_Status × List ism_Result)
  | [] => (s, [])
  | x :: rest =>
      let u := sessionUpdate s x
      let t := updateTrace u.2.1 rest
      (t.1, (u.1, u.2.2) :: t.2)

/-- The concatenation of the result sequences of a trace. -/
def traceResults (outs : List (ism_Status × List ism_Result)) : List ism_Result :=
  (outs.map (fun o => o.2)).flatten

/-- One call of the session API, for whole-trace statements. -/
inductive ism_Call where
  | reset_with_params (p : ism_StrokeModelParams)
  | reset
  | update (x : ism_Input)
  | predict
  | save
  | restore

/-- The session transition and observable output of one call.  Save and restore
return no status in the header; they are reported as OK with no results. -/
def callStep (s : Session) : ism_Call → Session × ism_Status × List ism_Result
  | .reset_with_params p =>
      let r := ism_modeler_reset_with_params s p
      (r.2, r.1, [])
  | .reset =>
      let r := ism_modeler_reset s
      (r.2, r.1, [])
  | .update x =>
      let r := sessionUpdate s x
      (r.2.1, r.1, r.2.2)
  | .predict =>
      let r := sessionPredict s
      (s, r.1, r.2)
  | .save => (ism_modeler_save s, .ISM_STATUS_OK, [])
  | .restore => (ism_modeler_restore s, .ISM_STATUS_OK, [])

/-- Runs a list of calls, collecting each call's status and results. -/
def runCalls (s : Session) : List ism_Call → Session × List (ism_Status × List ism_Result)
  | [] => (s, [])
  | c :: cs =>
      let r := callStep s c
      let t := runCalls r.1 cs
      (t.1, (r.2.1, r.2.2) :: t.2)

/-- Two parameter sets that are identical except for the contents of the
`kalman` sub-struct, with a prediction kind other than Kalman. -/
def kalmanAgnostic (p q : ism_StrokeModelParams) : Prop :=
  p.prediction.kind ≠ .ISM_PREDICTION_KALMAN ∧
  p.wobble = q.wobble ∧ p.position = q.position ∧ p.sampling = q.sampling ∧
  p.stylus_state = q.stylus_state ∧ p.prediction.kind = q.prediction.kind

/-- Relation between the optional parameter fields of two sessions that must
behave identically: both absent, or present and equal up to the ignored
`kalman` sub-struct. -/
def paramsRel : Option ism_StrokeModelParams → Option ism_StrokeModelParams → Prop
  | none, none => True
  | some p, some q => p = q ∨ kalmanAgnostic p q
  | _, _ => False

/-- Relation between two sessions whose observable behaviour must coincide:
identical stroke state and snapshot, parameters related by `paramsRel`. -/
def sessRel (a b : Session) : Prop :=
  paramsRel a.params b.params ∧ a.inStroke = b.inStroke ∧ a.stroke = b.stroke ∧
    a.saved = b.saved

/-- The parameter-and-stroke observable part of a session: everything except
the snapshot slot. -/
def obs (s : Session) : Option ism_StrokeModelParams × Bool × StrokeState :=
  (s.params, s.inStroke, s.stroke)

/-- Strictly increasing times starting strictly above `t0` and ending exactly
at `t1`: the shape of the time sequence one successful in-stroke Update emits. -/
def SpansTimes (t0 : ℚ) : List ℚ → ℚ → Prop
  | [], t1 => t0 = t1
  | t :: ts, t1 => t0 < t ∧ SpansTimes t ts t1

/-- Strictly increasing times starting strictly above `t0`. -/
def IncreasingFrom (t0 : ℚ) : List ℚ → Prop
  | [] => True
  | t :: ts => t0 < t ∧ IncreasingFrom t ts

/-- Nominal Kalman predictor parameters, used by concrete examples. -/
def defaultKalmanParams : ism_KalmanPredictorParams :=
  ⟨1, 1, 4, 20, 0, 1 / 2, 1 / 10, 1 / 60, ⟨20, 1, 0, 5, 2, 2 / 5⟩⟩

/-- Alternative Kalman predictor parameters differing from
`defaultKalmanParams` in every numeric field, used by concrete examples. -/
def altKalmanParams : ism_KalmanPredictorParams :=
  ⟨2, 3, 7, 9, 1, 1 / 3, 1 / 5, 1 / 30, ⟨11, 2, 1, 6, 3, 1 / 5⟩⟩

/-- A valid parameter set used by concrete examples: wobble disabled, loop
mitigation disabled, stroke-end prediction, output rate 2, stopping distance
1/1000, at most 2 end-of-stroke iterations, at most 100 outputs per call. -/
def defaultTestParams : ism_StrokeModelParams :=
  ⟨⟨false, 1 / 25, 1, 2⟩, ⟨1, 2, ⟨false, 0, 1, 1, 1, 1 / 10⟩⟩,
    ⟨2, 1 / 1000, 2, 100, -1⟩, ⟨false⟩,
    ⟨.ISM_PREDICTION_STROKE_END, defaultKalmanParams⟩⟩

/-- A parameter set selecting the disabled prediction strategy. -/
def disabledPredictionParams : ism_StrokeModelParams :=
  ⟨⟨false, 1 / 25, 1, 2⟩, ⟨1, 2, ⟨false, 0, 1, 1, 1, 1 / 10⟩⟩,
    ⟨2, 1 / 1000, 2, 100, -1⟩, ⟨false⟩,
    ⟨.ISM_PREDICTION_DISABLED, defaultKalmanParams⟩⟩

/-- `defaultTestParams` with an invalid `min_output_rate` of zero. -/
def invalidRateParams : ism_StrokeModelParams :=
  ⟨⟨false, 1 / 25, 1, 2⟩, ⟨1, 2, ⟨false, 0, 1, 1, 1, 1 / 10⟩⟩,
    ⟨0, 1 / 1000, 2, 100, -1⟩, ⟨false⟩,
    ⟨.ISM_PREDICTION_STROKE_END, defaultKalmanParams⟩⟩

/-- `defaultTestParams` with the `kalman` sub-struct replaced, everything else
identical. -/
def defaultTestParamsAltKalman : ism_StrokeModelParams :=
  ⟨⟨false, 1 / 25, 1, 2⟩, ⟨1, 2, ⟨false, 0, 1, 1, 1, 1 / 10⟩⟩,
    ⟨2, 1 / 1000, 2, 100, -1⟩, ⟨false⟩,
    ⟨.ISM_PREDICTION_STROKE_END, altKalmanParams⟩⟩

/-- A DOWN input at the origin at time 0, used by concrete examples. -/
def downInput0 : ism_Input := ⟨.ISM_EVENT_DOWN, ⟨0, 0⟩, 0, 1 / 2, 0, 0⟩

/-- A MOVE input to (4, 0) at time 1, used by concrete examples. -/
def moveInput1 : ism_Input := ⟨.ISM_EVENT_MOVE, ⟨4, 0⟩, 1, 1 / 2, 0, 0⟩

/-- An UP input at (4, 0) at time 2, used by concrete examples. -/
def upInput2 : ism_Input := ⟨.ISM_EVENT_UP, ⟨4, 0⟩, 2, 1 / 2, 0, 0⟩

/-- A zero-filled result record, used as buffer padding by concrete examples. -/
def zeroResult : ism_Result := ⟨⟨0, 0⟩, ⟨0, 0⟩, ⟨0, 0⟩, 0, 0, 0, 0⟩

/-- The session after a successful parameterized reset with
`defaultTestParams`, used by concrete examples. -/
def idleSession : Session :=
  (ism_modeler_reset_with_params ism_modeler_create defaultTestParams).2

/-- `idleSession` after a DOWN at the origin: a stroke in progress, used by
concrete examples. -/
def strokeSession : Session :=
  (sessionUpdate idleSession downInput0).2.1

/-- A MOVE whose time does not advance past the stroke start: a stale input
rejected by Update with no results, used by concrete examples. -/
def staleMoveInput0 : ism_Input := ⟨.ISM_EVENT_MOVE, ⟨4, 0⟩, 0, 1 / 2, 0, 0⟩

/-- Emitted spans compose: a span from `t0` to `t1` followed by a span from
`t1` to `t2` is a span from `t0` to `t2`. -/
theorem spansTimes_append (t0 t1 t2 : ℚ) (A B : List ℚ)
    (hA : SpansTimes t0 A t1) (hB : SpansTimes t1 B t2) :
    SpansTimes t0 (A ++ B) t2 := by
  induction A generalizing t0 with
  | nil => simpa [SpansTimes] using hA ▸ hB
  | cons a A ih =>
      obtain ⟨h1, h2⟩ := hA
      exact ⟨h1, ih a h2⟩

/-- A span followed by any increasing tail from its endpoint is increasing. -/
theorem spansTimes_increasingFrom_append (t0 t1 : ℚ) (A B : List ℚ)
    (hA : SpansTimes t0 A t1) (hB : IncreasingFrom t1 B) :
    IncreasingFrom t0 (A ++ B) := by
  induction A generalizing t0 with
  | nil => simpa [SpansTimes] using hA ▸ hB
  | cons a A ih =>
      obtain ⟨h1, h2⟩ := hA
      exact ⟨h1, ih a h2⟩

/-- A strictly increasing time list headed by its strict lower bound forms a
strictly increasing chain. -/
theorem increasingFrom_chain (t0 : ℚ) (ts : List ℚ) (h : IncreasingFrom t0 ts) :
    List.Chain' (fun a b : ℚ => a < b) (t0 :: ts) := by
  induction ts generalizing t0 with
  | nil => exact List.chain'_singleton t0
  | cons t ts ih =>
      obtain ⟨h1, h2⟩ := h
      exact List.chain'_cons.mpr ⟨h1, ih t h2⟩

/-- One position-model step advances the state's time by exactly `dt`. -/
theorem modelStep_time (pp : ism_PositionModelerParams) (tg : ism_Vec2) (dt : ℚ)
    (st : PhysState) : (modelStep pp tg dt st).time = st.time + dt := rfl

/-- The states emitted by `modelSteps` have strictly increasing times starting
above the initial time and ending at the final state's time. -/
theorem modelSteps_spans (pp : ism_PositionModelerParams) (tg : ism_Vec2) (dt : ℚ)
    (hdt : 0 < dt) (n : Nat) (st : PhysState) :
    SpansTimes st.time (((modelSteps pp tg dt st n).2).map PhysState.time)
      ((modelSteps pp tg dt st n).1.time) := by
  induction n generalizing st with
  | zero => simp [modelSteps, SpansTimes]
  | succ n ih =>
      refine ⟨?_, ih (modelStep pp tg dt st)⟩
      rw [modelStep_time]
      linarith

/-- The states emitted by `endOfStrokeSteps` have strictly increasing times
starting above the initial time and ending at the final state's time. -/
theorem endOfStrokeSteps_spans (pp : ism_PositionModelerParams) (tg : ism_Vec2)
    (dt stop2 : ℚ) (hdt : 0 < dt) (n : Nat) (st : PhysState) :
    SpansTimes st.time (((endOfStrokeSteps pp tg dt stop2 st n).2).map PhysState.time)
      ((endOfStrokeSteps pp tg dt stop2 st n).1.time) := by
  induction n generalizing st with
  | zero => simp [endOfStrokeSteps, SpansTimes]
  | succ n ih =>
      rw [endOfStrokeSteps]
      split
      · simp [SpansTimes]
      · refine ⟨?_, ih (modelStep pp tg dt st)⟩
        rw [modelStep_time]
        linarith

/-- Attaching stylus channels preserves the emitted times. -/
theorem resultsFor_map_time (p : ism_StrokeModelParams) (st : StrokeState)
    (inp : ism_Input) (states : List PhysState) :
    (resultsFor p st inp states).map ism_Result.time = states.map PhysState.time := by
  unfold resultsFor
  rw [List.map_map]
  rfl

/-- At least one simulated step is always taken. -/
theorem numSteps_pos (sp : ism_SamplingParams) (t0 t1 : ℚ) : 1 ≤ numSteps sp t0 t1 :=
  le_max_left 1 _

/-- The time slice per step of a forward-in-time input is positive. -/
theorem moveDt_pos (p : ism_StrokeModelParams) (st : StrokeState) (inp : ism_Input)
    (ht : st.phys.time < inp.time) : 0 < moveDt p st inp := by
  unfold moveDt
  apply div_pos (by linarith)
  have h1 : 0 < numSteps p.sampling st.phys.time inp.time :=
    Nat.lt_of_lt_of_le Nat.zero_lt_one (numSteps_pos p.sampling st.phys.time inp.time)
  exact_mod_cast h1

/-- Update equation: a DOWN with no stroke in progress starts the stroke at the
raw input and emits exactly one result at the input's time. -/
theorem updateCore_down (p : ism_StrokeModelParams) (st : StrokeState) (inp : ism_Input)
    (he : inp.event_type = .ISM_EVENT_DOWN) :
    updateCore p false st inp =
      (.ISM_STATUS_OK, true,
        ⟨⟨inp.position, ⟨0, 0⟩, ⟨0, 0⟩, inp.time⟩, inp.position, inp.pressure, inp.tilt,
          inp.orientation, [], pushHistory p inp.position inp.time []⟩,
        [mkResult ⟨inp.position, ⟨0, 0⟩, ⟨0, 0⟩, inp.time⟩ inp.pressure inp.tilt
          inp.orientation]) := by
  simp [updateCore, he]

/-- Update equation: an in-stroke MOVE with a forward time steps the pipeline
and stays in the stroke. -/
theorem updateCore_move (p : ism_StrokeModelParams) (st : StrokeState) (inp : ism_Input)
    (he : inp.event_type = .ISM_EVENT_MOVE) (ht : st.phys.time < inp.time) :
    updateCore p true st inp =
      (.ISM_STATUS_OK, true,
        ⟨(moveSteps p st inp).1, inp.position, inp.pressure, inp.tilt, inp.orientation,
          moveWindow p st inp, pushHistory p inp.position inp.time st.kalmanHistory⟩,
        resultsFor p st inp (moveSteps p st inp).2) := by
  simp [updateCore, he, not_le.mpr ht]

/-- Update equation: an in-stroke UP with a forward time steps the pipeline,
settles the stroke end and leaves the stroke. -/
theorem updateCore_up (p : ism_StrokeModelParams) (st : StrokeState) (inp : ism_Input)
    (he : inp.event_type = .ISM_EVENT_UP) (ht : st.phys.time < inp.time) :
    updateCore p true st inp =
      (.ISM_STATUS_OK, false,
        ⟨(upSteps p st inp).1, inp.position, inp.pressure, inp.tilt, inp.orientation,
          moveWindow p st inp, pushHistory p inp.position inp.time st.kalmanHistory⟩,
        resultsFor p st inp ((moveSteps p st inp).2 ++ (upSteps p st inp).2)) := by
  simp [updateCore, he, not_le.mpr ht]

/-- Update equation: a MOVE or UP with no stroke in progress is rejected with a
failed precondition and no state change. -/
theorem updateCore_idle_fail (p : ism_StrokeModelParams) (st : StrokeState)
    (inp : ism_Input) (he : inp.event_type ≠ .ISM_EVENT_DOWN) :
    updateCore p false st inp = (.ISM_STATUS_FAILED_PRECONDITION, false, st, []) := by
  simp [updateCore, he]

/-- Every Update either succeeds or emits no results. -/
theorem updateCore_ok_or_nil (p : ism_StrokeModelParams) (b : Bool) (st : StrokeState)
    (inp : ism_Input) :
    (updateCore p b st inp).1 = .ISM_STATUS_OK ∨ (updateCore p b st inp).2.2.2 = [] := by
  unfold updateCore
  split
  · split
    · exact Or.inr rfl
    · exact Or.inl rfl
  · split
    · split
      · exact Or.inr rfl
      · split
        · exact Or.inl rfl
        · exact Or.inl rfl
    · exact Or.inr rfl

/-- Session-level Update with no installed parameters is rejected with a failed
precondition and no state change. -/
theorem sessionUpdate_none (s : Session) (inp : ism_Input) (h : s.params = none) :
    sessionUpdate s inp = (.ISM_STATUS_FAILED_PRECONDITION, s, []) := by
  simp [sessionUpdate, h]

/-- Session-level Update with installed parameters delegates to the per-stroke
transition and touches neither the parameters nor the snapshot slot. -/
theorem sessionUpdate_some (s : Session) (p : ism_StrokeModelParams) (inp : ism_Input)
    (h : s.params = some p) :
    sessionUpdate s inp =
      ((updateCore p s.inStroke s.stroke inp).1,
        ⟨some p, (updateCore p s.inStroke s.stroke inp).2.1,
          (updateCore p s.inStroke s.stroke inp).2.2.1, s.saved⟩,
        (updateCore p s.inStroke s.stroke inp).2.2.2) := by
  simp [sessionUpdate, h]

/-- Update equation: an in-stroke MOVE or UP whose time does not advance past
the last committed time is rejected as an invalid argument with no state
change. -/
theorem updateCore_stale (p : ism_StrokeModelParams) (st : StrokeState) (inp : ism_Input)
    (he : inp.event_type ≠ .ISM_EVENT_DOWN) (hle : inp.time ≤ st.phys.time) :
    updateCore p true st inp = (.ISM_STATUS_INVALID_ARGUMENT, true, st, []) := by
  simp [updateCore, he, hle]

/-- The move-phase states of one input span its time interval. -/
theorem moveSteps_spans (p : ism_StrokeModelParams) (st : StrokeState) (inp : ism_Input)
    (ht : st.phys.time < inp.time) :
    SpansTimes st.phys.time (((moveSteps p st inp).2).map PhysState.time)
      ((moveSteps p st inp).1.time) := by
  unfold moveSteps
  exact modelSteps_spans _ _ _ (moveDt_pos p st inp ht) _ _

/-- The end-of-stroke settling states span onward from the last move state. -/
theorem upSteps_spans (p : ism_StrokeModelParams) (st : StrokeState) (inp : ism_Input)
    (hv : 0 < p.sampling.min_output_rate) :
    SpansTimes (moveSteps p st inp).1.time (((upSteps p st inp).2).map PhysState.time)
      ((upSteps p st inp).1.time) := by
  unfold upSteps
  exact endOfStrokeSteps_spans _ _ _ _ (one_div_pos.mpr hv) _ _

/-- Unfolding equation of `updateTrace` on a first input. -/
theorem updateTrace_cons (s : Session) (x : ism_Input) (rest : List ism_Input) :
    updateTrace s (x :: rest) =
      ((updateTrace (sessionUpdate s x).2.1 rest).1,
        ((sessionUpdate s x).1, (sessionUpdate s x).2.2) ::
          (updateTrace (sessionUpdate s x).2.1 rest).2) := rfl

/-- Unfolding equation of `traceResults` on a first output. -/
theorem traceResults_cons (a : ism_Status × List ism_Result)
    (l : List (ism_Status × List ism_Result)) :
    traceResults (a :: l) = a.2 ++ traceResults l := by
  simp [traceResults]

/-- A trace of non-DOWN inputs on a session with no stroke in progress can only
be all-OK when it is empty: its first call would be rejected. -/
theorem updateTrace_idle_nil (p : ism_StrokeModelParams) (inputs : List ism_Input)
    (s : Session) (hp : s.params = some p) (hs : s.inStroke = false)
    (hnd : ∀ y ∈ inputs, y.event_type ≠ .ISM_EVENT_DOWN)
    (hok : ∀ o ∈ (updateTrace s inputs).2, o.1 = .ISM_STATUS_OK) :
    (updateTrace s inputs).2 = [] := by
  cases inputs with
  | nil => rfl
  | cons y rest =>
      exfalso
      have hmem : ((sessionUpdate s y).1, (sessionUpdate s y).2.2) ∈
          (updateTrace s (y :: rest)).2 := by
        rw [updateTrace_cons]
        exact List.mem_cons_self _ _
      have h1 := hok _ hmem
      rw [sessionUpdate_some s p y hp] at h1
      rw [hs, updateCore_idle_fail p s.stroke y (hnd y (List.mem_cons_self _ _))] at h1
      simp at h1

/-- Core monotonicity induction: an all-OK trace of non-DOWN inputs on a
session with a stroke in progress emits strictly increasing times, all above
the session's last committed time. -/
theorem updateTrace_spans (p : ism_StrokeModelParams)
    (hv : 0 < p.sampling.min_output_rate) (inputs : List ism_Input) :
    ∀ (s : Session), s.params = some p → s.inStroke = true →
      (∀ y ∈ inputs, y.event_type ≠ .ISM_EVENT_DOWN) →
      (∀ o ∈ (updateTrace s inputs).2, o.1 = .ISM_STATUS_OK) →
      IncreasingFrom s.stroke.phys.time
        ((traceResults (updateTrace s inputs).2).map ism_Result.time) := by
  induction inputs with
  | nil =>
      intro s hp hs hnd hok
      simp [updateTrace, traceResults, IncreasingFrom]
  | cons x rest ih =>
      intro s hp hs hnd hok
      have hx : x.event_type ≠ .ISM_EVENT_DOWN := hnd x (List.mem_cons_self _ _)
      have hok1 : (sessionUpdate s x).1 = .ISM_STATUS_OK := by
        have hm := hok ((sessionUpdate s x).1, (sessionUpdate s x).2.2) (by
          rw [updateTrace_cons]
          exact List.mem_cons_self _ _)
        exact hm
      have ht : s.stroke.phys.time < x.time := by
        by_contra hle
        push_neg at hle
        rw [sessionUpdate_some s p x hp, hs, updateCore_stale p s.stroke x hx hle] at hok1
        simp at hok1
      have hnd' : ∀ y ∈ rest, y.event_type ≠ .ISM_EVENT_DOWN := fun y hy =>
        hnd y (List.mem_cons_of_mem _ hy)
      have hok' : ∀ o ∈ (updateTrace (sessionUpdate s x).2.1 rest).2,
          o.1 = .ISM_STATUS_OK := by
        intro o ho
        apply hok
        rw [updateTrace_cons]
        exact List.mem_cons_of_mem _ ho
      have hu := sessionUpdate_some s p x hp
      rw [hs] at hu
      cases hev : x.event_type with
      | ISM_EVENT_DOWN => exact absurd hev hx
      | ISM_EVENT_MOVE =>
          rw [updateCore_move p s.stroke x hev ht] at hu
          rw [hu] at hok'
          rw [updateTrace_cons, traceResults_cons, hu]
          dsimp only
          rw [List.map_append]
          refine spansTimes_increasingFrom_append _ ((moveSteps p s.stroke x).1.time) _ _ ?_ ?_
          · rw [resultsFor_map_time]
            exact moveSteps_spans p s.stroke x ht
          · exact ih _ rfl rfl hnd' hok'
      | ISM_EVENT_UP =>
          rw [updateCore_up p s.stroke x hev ht] at hu
          rw [hu] at hok'
          rw [updateTrace_cons, traceResults_cons, hu]
          dsimp only
          rw [List.map_append]
          refine spansTimes_increasingFrom_append _ ((upSteps p s.stroke x).1.time) _ _ ?_ ?_
          · rw [resultsFor_map_time, List.map_append]
            exact spansTimes_append _ _ _ _ _ (moveSteps_spans p s.stroke x ht)
              (upSteps_spans p s.stroke x hv)
          · rw [updateTrace_idle_nil p rest _ rfl rfl hnd' hok']
            simp [traceResults, IncreasingFrom]

/-- The nominal example parameter set passes validation. -/
theorem validateParams_default : validateParams defaultTestParams = true := by
  norm_num [validateParams, defaultTestParams]

/-- Concrete evaluation: the example reset produces an idle session holding the
example parameters. -/
theorem idleSession_eq :
    idleSession = ⟨some defaultTestParams, false, initialStroke, none⟩ := by
  simp [idleSession, ism_modeler_reset_with_params, validateParams_default]

/-- Concrete evaluation: the example DOWN starts a stroke at the origin and
emits one result. -/
theorem sessionUpdate_idle_down :
    sessionUpdate idleSession downInput0 =
      (.ISM_STATUS_OK,
        ⟨some defaultTestParams, true,
          ⟨⟨⟨0, 0⟩, ⟨0, 0⟩, ⟨0, 0⟩, 0⟩, ⟨0, 0⟩, 1 / 2, 0, 0, [], []⟩, none⟩,
        [mkResult ⟨⟨0, 0⟩, ⟨0, 0⟩, ⟨0, 0⟩, 0⟩ (1 / 2) 0 0]) := by
  rw [idleSession_eq]
  rw [sessionUpdate_some _ defaultTestParams _ rfl]
  dsimp only
  rw [updateCore_down _ _ _ rfl]
  simp [downInput0, pushHistory, defaultTestParams, initialStroke]

/-- Concrete evaluation: the example in-stroke session. -/
theorem strokeSession_eq :
    strokeSession =
      ⟨some defaultTestParams, true,
        ⟨⟨⟨0, 0⟩, ⟨0, 0⟩, ⟨0, 0⟩, 0⟩, ⟨0, 0⟩, 1 / 2, 0, 0, [], []⟩, none⟩ := by
  unfold strokeSession
  rw [sessionUpdate_idle_down]

/-- C5: within one stroke (one DOWN followed by non-DOWN inputs), the time
field of the Results is strictly increasing across the concatenation of all
sequences returned by successive successful Update calls. -/
theorem stroke_times_strictly_increasing (s : Session) (p : ism_StrokeModelParams)
    (hp : s.params = some p) (hv : 0 < p.sampling.min_output_rate)
    (hs : s.inStroke = false) (x : ism_Input) (rest : List ism_Input)
    (hx : x.event_type = .ISM_EVENT_DOWN)
    (hrest : ∀ y ∈ rest, y.event_type ≠ .ISM_EVENT_DOWN)
    (hok : ∀ o ∈ (updateTrace s (x :: rest)).2, o.1 = .ISM_STATUS_OK) :
    List.Chain' (fun a b : ℚ => a < b)
      ((traceResults (updateTrace s (x :: rest)).2).map ism_Result.time) := by
  have hok' : ∀ o ∈ (updateTrace (sessionUpdate s x).2.1 rest).2,
      o.1 = .ISM_STATUS_OK := by
    intro o ho
    apply hok
    rw [updateTrace_cons]
    exact List.mem_cons_of_mem _ ho
  have hu := sessionUpdate_some s p x hp
  rw [hs, updateCore_down p s.stroke x hx] at hu
  rw [hu] at hok'
  rw [updateTrace_cons, traceResults_cons, hu]
  dsimp only
  have hinc := updateTrace_spans p hv rest _ rfl rfl hrest hok'
  simpa [mkResult] using increasingFrom_chain _ _ hinc

/-- Concrete evaluation: the example MOVE succeeds on the example in-stroke
session. -/
theorem sessionUpdate_stroke_move_status :
    (sessionUpdate ⟨some defaultTestParams, true,
      ⟨⟨⟨0, 0⟩, ⟨0, 0⟩, ⟨0, 0⟩, 0⟩, ⟨0, 0⟩, 1 / 2, 0, 0, [], []⟩, none⟩ moveInput1).1 =
      .ISM_STATUS_OK := by
  rw [sessionUpdate_some _ defaultTestParams _ rfl]
  dsimp only
  rw [updateCore_move _ _ _ rfl (by norm_num [moveInput1])]

/-- C5 witness: the DOWN-then-MOVE example trace satisfies the hypotheses of
the monotonicity theorem and its concatenated result times form a strictly
increasing chain. -/
theorem stroke_times_strictly_increasing_witness :
    idleSession.params = some defaultTestParams ∧
    List.Chain' (fun a b : ℚ => a < b)
      ((traceResults (updateTrace idleSession [downInput0, moveInput1]).2).map
        ism_Result.time) := by
  have hok : ∀ o ∈ (updateTrace idleSession [downInput0, moveInput1]).2,
      o.1 = .ISM_STATUS_OK := by
    intro o ho
    rw [updateTrace_cons, updateTrace_cons, sessionUpdate_idle_down] at ho
    dsimp only at ho
    simp only [updateTrace, List.mem_cons, List.not_mem_nil, or_false] at ho
    rcases ho with ho | ho
    · rw [ho]
    · rw [ho]
      exact sessionUpdate_stroke_move_status
  refine ⟨by rw [idleSession_eq], ?_⟩
  exact stroke_times_strictly_increasing idleSession defaultTestParams
    (by rw [idleSession_eq]) (by norm_num [defaultTestParams])
    (by rw [idleSession_eq]) downInput0 [moveInput1] rfl
    (by
      intro y hy
      simp only [List.mem_singleton] at hy
      rw [hy]
      simp [moveInput1])
    hok

/-- Every session-level Update either succeeds or generates no results. -/
theorem sessionUpdate_ok_or_nil (s : Session) (inp : ism_Input) :
    (sessionUpdate s inp).1 = .ISM_STATUS_OK ∨ (sessionUpdate s inp).2.2 = [] := by
  cases hp : s.params with
  | none => exact Or.inr (by rw [sessionUpdate_none s inp hp])
  | some p =>
      rw [sessionUpdate_some s p inp hp]
      exact updateCore_ok_or_nil p s.inStroke s.stroke inp

/-- `modelSteps` emits exactly the requested number of states. -/
theorem modelSteps_length (pp : ism_PositionModelerParams) (tg : ism_Vec2) (dt : ℚ)
    (n : Nat) (st : PhysState) : ((modelSteps pp tg dt st n).2).length = n := by
  induction n generalizing st with
  | zero => rfl
  | succ n ih =>
      show ((modelSteps pp tg dt (modelStep pp tg dt st) n).2).length + 1 = n + 1
      rw [ih]

/-- Attaching stylus channels preserves the number of results. -/
theorem resultsFor_length (p : ism_StrokeModelParams) (st : StrokeState)
    (inp : ism_Input) (states : List PhysState) :
    (resultsFor p st inp states).length = states.length := by
  unfold resultsFor
  rw [List.length_map]

/-- A successful in-stroke MOVE generates exactly `numSteps` results. -/
theorem updateResults_move_length (s : Session) (p : ism_StrokeModelParams)
    (inp : ism_Input) (hp : s.params = some p) (hs : s.inStroke = true)
    (he : inp.event_type = .ISM_EVENT_MOVE) (ht : s.stroke.phys.time < inp.time) :
    (updateResults s inp).length = numSteps p.sampling s.stroke.phys.time inp.time := by
  unfold updateResults
  rw [sessionUpdate_some s p inp hp]
  dsimp only
  rw [hs, updateCore_move p s.stroke inp he ht]
  dsimp only
  rw [resultsFor_length]
  unfold moveSteps
  rw [modelSteps_length]

/-- C1: if the true number of results generated by an Update exceeds the
caller-provided buffer capacity `max_results`, the call's status is OK
(truncation is not an error), the written prefix is exactly the first
`max_results` generated results (so exactly `max_results` results are
written), and `out_count` reports the full untruncated total. -/
theorem update_truncation (s : Session) (inp : ism_Input) (buf : List ism_Result)
    (max_results : Nat)
    (h : max_results < (ism_modeler_update s inp buf max_results).2.2.2) :
    (ism_modeler_update s inp buf max_results).1 = .ISM_STATUS_OK ∧
    (ism_modeler_update s inp buf max_results).2.2.1.take max_results =
      (updateResults s inp).take max_results ∧
    ((updateResults s inp).take max_results).length = max_results ∧
    (ism_modeler_update s inp buf max_results).2.2.2 = (updateResults s inp).length := by
  have hlen : max_results < (updateResults s inp).length := h
  have hl : ((updateResults s inp).take max_results).length = max_results := by
    rw [List.length_take]
    exact inf_eq_left.mpr (le_of_lt hlen)
  refine ⟨?_, ?_, hl, rfl⟩
  · rcases sessionUpdate_ok_or_nil s inp with hok | hnil
    · exact hok
    · exfalso
      rw [show updateResults s inp = (sessionUpdate s inp).2.2 from rfl, hnil] at hlen
      simp at hlen
  · show (writeResults buf (updateResults s inp) max_results).take max_results =
      (updateResults s inp).take max_results
    unfold writeResults
    exact List.take_left' hl

/-- C1 witness: the example MOVE generates two results; with buffer capacity
one the call truncates, reporting OK and the true total. -/
theorem update_truncation_witness :
    1 < (ism_modeler_update strokeSession moveInput1 [zeroResult] 1).2.2.2 ∧
    ((ism_modeler_update strokeSession moveInput1 [zeroResult] 1).1 = .ISM_STATUS_OK ∧
     (ism_modeler_update strokeSession moveInput1 [zeroResult] 1).2.2.1.take 1 =
       (updateResults strokeSession moveInput1).take 1 ∧
     ((updateResults strokeSession moveInput1).take 1).length = 1 ∧
     (ism_modeler_update strokeSession moveInput1 [zeroResult] 1).2.2.2 =
       (updateResults strokeSession moveInput1).length) := by
  have hlen : (updateResults strokeSession moveInput1).length = 2 := by
    rw [updateResults_move_length strokeSession defaultTestParams moveInput1
      (by rw [strokeSession_eq]) (by rw [strokeSession_eq]) rfl
      (by rw [strokeSession_eq]; norm_num [moveInput1])]
    rw [strokeSession_eq]
    norm_num [numSteps, defaultTestParams, moveInput1]
  have h : 1 < (ism_modeler_update strokeSession moveInput1 [zeroResult] 1).2.2.2 := by
    show 1 < (updateResults strokeSession moveInput1).length
    rw [hlen]
    norm_num
  exact ⟨h, update_truncation strokeSession moveInput1 [zeroResult] 1 h⟩

/-- The buffer write discipline preserves the buffer length whenever the
declared capacity does not exceed the buffer's length. -/
theorem writeResults_length (buf rs : List ism_Result) (cap : Nat)
    (h : cap ≤ buf.length) : (writeResults buf rs cap).length = buf.length := by
  unfold writeResults
  rw [List.length_append, List.length_drop]
  have h1 : (rs.take cap).length ≤ buf.length := by
    rw [List.length_take]
    exact le_trans inf_le_left h
  omega

/-- Entries at or beyond the written prefix keep their previous contents. -/
theorem writeResults_frame (buf rs : List ism_Result) (cap i : Nat)
    (h : min rs.length cap ≤ i) : (writeResults buf rs cap)[i]? = buf[i]? := by
  unfold writeResults
  have hm : (rs.take cap).length ≤ i := by
    rw [List.length_take]
    rw [min_comm] at h
    exact h
  rw [List.getElem?_append_right hm, List.getElem?_drop]
  congr 1
  omega

/-- C10: for every Update or Predict call with buffer capacity `max_results`
(and a caller buffer at least that long), the buffer keeps its length — at most
`max_results` entries are written — and, per call, every entry at an index at
or beyond that call's `min (out_count, max_results)` is left unmodified by the
call. -/
theorem update_predict_buffer_frame (s : Session) (inp : ism_Input)
    (buf : List ism_Result) (max_results i : Nat)
    (hbuf : max_results ≤ buf.length) :
    ((ism_modeler_update s inp buf max_results).2.2.1.length = buf.length ∧
     (min (ism_modeler_update s inp buf max_results).2.2.2 max_results ≤ i →
       (ism_modeler_update s inp buf max_results).2.2.1[i]? = buf[i]?)) ∧
    ((ism_modeler_predict s buf max_results).2.2.1.length = buf.length ∧
     (min (ism_modeler_predict s buf max_results).2.2.2 max_results ≤ i →
       (ism_modeler_predict s buf max_results).2.2.1[i]? = buf[i]?)) :=
  ⟨⟨writeResults_length _ _ _ hbuf, fun hu => writeResults_frame _ _ _ _ hu⟩,
    ⟨writeResults_length _ _ _ hbuf, fun hp2 => writeResults_frame _ _ _ _ hp2⟩⟩

/-- C10 witness: on the example in-stroke session a stale MOVE generates zero
results, so with capacity two the Update call's own bound min(0, 2) ≤ 1 holds
at index one regardless of what Predict would generate, and the entry at index
one is untouched while the buffer keeps its length. -/
theorem update_predict_buffer_frame_witness :
    2 ≤ ([zeroResult, zeroResult] : List ism_Result).length ∧
    min (ism_modeler_update strokeSession staleMoveInput0 [zeroResult, zeroResult] 2).2.2.2
      2 ≤ 1 ∧
    ((ism_modeler_update strokeSession staleMoveInput0 [zeroResult, zeroResult] 2).2.2.1.length =
       ([zeroResult, zeroResult] : List ism_Result).length ∧
     (ism_modeler_update strokeSession staleMoveInput0 [zeroResult, zeroResult] 2).2.2.1[1]? =
       ([zeroResult, zeroResult] : List ism_Result)[1]?) := by
  have hbuf : 2 ≤ ([zeroResult, zeroResult] : List ism_Result).length := by norm_num
  have hnil : (sessionUpdate strokeSession staleMoveInput0).2.2 = [] := by
    rw [strokeSession_eq, sessionUpdate_some _ defaultTestParams _ rfl]
    dsimp only
    rw [updateCore_stale defaultTestParams _ staleMoveInput0 (by simp [staleMoveInput0])
      (by norm_num [staleMoveInput0])]
  have hcount : (ism_modeler_update strokeSession staleMoveInput0
      [zeroResult, zeroResult] 2).2.2.2 = 0 := by
    show (sessionUpdate strokeSession staleMoveInput0).2.2.length = 0
    rw [hnil]
    rfl
  have hu : min (ism_modeler_update strokeSession staleMoveInput0
      [zeroResult, zeroResult] 2).2.2.2 2 ≤ 1 := by
    rw [hcount]
    norm_num
  have hthm := update_predict_buffer_frame strokeSession staleMoveInput0
    [zeroResult, zeroResult] 2 1 hbuf
  exact ⟨hbuf, hu, hthm.1.1, hthm.1.2 hu⟩

/-- Writing the same results into an already-written buffer changes nothing. -/
theorem writeResults_idem (buf rs : List ism_Result) (cap : Nat) :
    writeResults (writeResults buf rs cap) rs cap = writeResults buf rs cap := by
  unfold writeResults
  congr 1
  rw [List.drop_left]

/-- C2: Predict does not change the session state, and two consecutive Predict
calls with no intervening Update — the second reading back the session and
buffer produced by the first — return identical statuses, identical written
buffers, identical `out_count` values and identical sessions. -/
theorem predict_pure_idempotent (s : Session) (buf : List ism_Result) (cap : Nat) :
    (ism_modeler_predict s buf cap).2.1 = s ∧
    (ism_modeler_predict (ism_modeler_predict s buf cap).2.1
        (ism_modeler_predict s buf cap).2.2.1 cap).1 =
      (ism_modeler_predict s buf cap).1 ∧
    (ism_modeler_predict (ism_modeler_predict s buf cap).2.1
        (ism_modeler_predict s buf cap).2.2.1 cap).2.2.1 =
      (ism_modeler_predict s buf cap).2.2.1 ∧
    (ism_modeler_predict (ism_modeler_predict s buf cap).2.1
        (ism_modeler_predict s buf cap).2.2.1 cap).2.2.2 =
      (ism_modeler_predict s buf cap).2.2.2 ∧
    (ism_modeler_predict (ism_modeler_predict s buf cap).2.1
        (ism_modeler_predict s buf cap).2.2.1 cap).2.1 =
      (ism_modeler_predict s buf cap).2.1 := by
  refine ⟨rfl, rfl, ?_, rfl, rfl⟩
  show writeResults (writeResults buf (sessionPredict s).2 cap) (sessionPredict s).2 cap =
    writeResults buf (sessionPredict s).2 cap
  exact writeResults_idem _ _ _

/-- Session-level Update never touches the snapshot slot. -/
theorem sessionUpdate_saved (s : Session) (x : ism_Input) :
    (sessionUpdate s x).2.1.saved = s.saved := by
  cases hp : s.params with
  | none => rw [sessionUpdate_none s x hp]
  | some p => rw [sessionUpdate_some s p x hp]

/-- Session-level Update never changes the installed parameters. -/
theorem sessionUpdate_params (s : Session) (x : ism_Input) :
    (sessionUpdate s x).2.1.params = s.params := by
  cases hp : s.params with
  | none =>
      rw [sessionUpdate_none s x hp]
      exact hp
  | some p =>
      rw [sessionUpdate_some s p x hp]

/-- Sessions with the same observable part have identical Update statuses,
identical Update results e identical observable parts afterwards. -/
theorem sessionUpdate_obs (a b : Session) (h : obs a = obs b) (y : ism_Input) :
    (sessionUpdate a y).1 = (sessionUpdate b y).1 ∧
    (sessionUpdate a y).2.2 = (sessionUpdate b y).2.2 ∧
    obs (sessionUpdate a y).2.1 = obs (sessionUpdate b y).2.1 := by
  have h1 : a.params = b.params := congrArg Prod.fst h
  have h2 : a.inStroke = b.inStroke := congrArg (fun t => t.2.1) h
  have h3 : a.stroke = b.stroke := congrArg (fun t => t.2.2) h
  cases hp : a.params with
  | none =>
      rw [sessionUpdate_none a y hp, sessionUpdate_none b y (h1.symm.trans hp)]
      exact ⟨rfl, rfl, h⟩
  | some p =>
      rw [sessionUpdate_some a p y hp, sessionUpdate_some b p y (h1.symm.trans hp)]
      dsimp only
      rw [h2, h3]
      exact ⟨rfl, rfl, rfl⟩

/-- Sessions with the same observable part have identical Predict outcomes. -/
theorem sessionPredict_obs (a b : Session) (h : obs a = obs b) :
    sessionPredict a = sessionPredict b := by
  have h1 : a.params = b.params := congrArg Prod.fst h
  have h2 : a.inStroke = b.inStroke := congrArg (fun t => t.2.1) h
  have h3 : a.stroke = b.stroke := congrArg (fun t => t.2.2) h
  unfold sessionPredict
  rw [h1, h2, h3]

/-- C3: Save; Update(x); Restore restores the observable session part exactly,
so any subsequent Update or Predict behaves identically to the same pre-Save
session that never processed Update(x). -/
theorem save_update_restore_roundtrip (s : Session) (x y : ism_Input) :
    obs (ism_modeler_restore (sessionUpdate (ism_modeler_save s) x).2.1) = obs s ∧
    (sessionUpdate (ism_modeler_restore (sessionUpdate (ism_modeler_save s) x).2.1) y).1 =
      (sessionUpdate s y).1 ∧
    (sessionUpdate (ism_modeler_restore (sessionUpdate (ism_modeler_save s) x).2.1) y).2.2 =
      (sessionUpdate s y).2.2 ∧
    sessionPredict (ism_modeler_restore (sessionUpdate (ism_modeler_save s) x).2.1) =
      sessionPredict s := by
  have hsv : (sessionUpdate (ism_modeler_save s) x).2.1.saved =
      some (s.inStroke, s.stroke) := by
    rw [sessionUpdate_saved]
    rfl
  have hpar : (sessionUpdate (ism_modeler_save s) x).2.1.params = s.params := by
    rw [sessionUpdate_params]
    rfl
  have hobs : obs (ism_modeler_restore (sessionUpdate (ism_modeler_save s) x).2.1) =
      obs s := by
    unfold ism_modeler_restore
    rw [hsv]
    dsimp only
    unfold obs
    simp [hpar]
  exact ⟨hobs, (sessionUpdate_obs _ _ hobs y).1, (sessionUpdate_obs _ _ hobs y).2.1,
    sessionPredict_obs _ _ hobs⟩

/-- Validation succeeds exactly when the four spec invariants hold. -/
theorem validateParams_eq_true_iff (p : ism_StrokeModelParams) :
    validateParams p = true ↔
      (0 < p.sampling.min_output_rate ∧
       0 < p.sampling.end_of_stroke_stopping_distance ∧
       (0 < p.sampling.end_of_stroke_max_iterations ∧
        p.sampling.end_of_stroke_max_iterations ≤ 1000) ∧
       0 < p.sampling.max_outputs_per_call) := by
  simp [validateParams, Bool.and_eq_true, decide_eq_true_eq, and_assoc]

/-- C4: a parameter set violating one of the parameter invariants
(`min_output_rate > 0`, `end_of_stroke_stopping_distance > 0`,
`end_of_stroke_max_iterations` in (0, 1000], `max_outputs_per_call > 0`) is
rejected by parameterized Reset with INVALID_ARGUMENT and the session is left
exactly as it was before the call. -/
theorem reset_invalid_params (s : Session) (p : ism_StrokeModelParams)
    (h : ¬ 0 < p.sampling.min_output_rate ∨
         ¬ 0 < p.sampling.end_of_stroke_stopping_distance ∨
         ¬ (0 < p.sampling.end_of_stroke_max_iterations ∧
            p.sampling.end_of_stroke_max_iterations ≤ 1000) ∨
         ¬ 0 < p.sampling.max_outputs_per_call) :
    ism_modeler_reset_with_params s p = (.ISM_STATUS_INVALID_ARGUMENT, s) := by
  have hv : validateParams p = false := by
    rw [Bool.eq_false_iff, Ne, validateParams_eq_true_iff]
    tauto
  simp [ism_modeler_reset_with_params, hv]

/-- C4 witness: `min_output_rate = 0` is rejected and the fresh session is
untouched. -/
theorem reset_invalid_params_witness :
    (¬ 0 < invalidRateParams.sampling.min_output_rate ∨
     ¬ 0 < invalidRateParams.sampling.end_of_stroke_stopping_distance ∨
     ¬ (0 < invalidRateParams.sampling.end_of_stroke_max_iterations ∧
        invalidRateParams.sampling.end_of_stroke_max_iterations ≤ 1000) ∨
     ¬ 0 < invalidRateParams.sampling.max_outputs_per_call) ∧
    ism_modeler_reset_with_params ism_modeler_create invalidRateParams =
      (.ISM_STATUS_INVALID_ARGUMENT, ism_modeler_create) :=
  ⟨Or.inl (by norm_num [invalidRateParams]),
    reset_invalid_params ism_modeler_create invalidRateParams
      (Or.inl (by norm_num [invalidRateParams]))⟩

/-- C6: Update on a session with no successful parameterized Reset behind it is
rejected with FAILED_PRECONDITION, and on a reset session an Update whose first
event of a stroke is MOVE or UP (no preceding DOWN, so no stroke in progress)
is rejected with FAILED_PRECONDITION. -/
theorem update_preconditions (s : Session) (inp : ism_Input) (buf : List ism_Result)
    (cap : Nat) :
    (s.params = none →
      (ism_modeler_update s inp buf cap).1 = .ISM_STATUS_FAILED_PRECONDITION) ∧
    (∀ p : ism_StrokeModelParams, s.params = some p → s.inStroke = false →
      inp.event_type ≠ .ISM_EVENT_DOWN →
      (ism_modeler_update s inp buf cap).1 = .ISM_STATUS_FAILED_PRECONDITION) := by
  constructor
  · intro h
    show (sessionUpdate s inp).1 = _
    rw [sessionUpdate_none s inp h]
  · intro p hp hs he
    show (sessionUpdate s inp).1 = _
    rw [sessionUpdate_some s p inp hp]
    dsimp only
    rw [hs, updateCore_idle_fail p s.stroke inp he]

/-- C6 witness: a MOVE on a fresh session and a MOVE on a freshly reset
session are both rejected with FAILED_PRECONDITION. -/
theorem update_preconditions_witness :
    ism_modeler_create.params = none ∧
    (ism_modeler_update ism_modeler_create moveInput1 [] 0).1 =
      .ISM_STATUS_FAILED_PRECONDITION ∧
    idleSession.params = some defaultTestParams ∧
    idleSession.inStroke = false ∧
    moveInput1.event_type ≠ .ISM_EVENT_DOWN ∧
    (ism_modeler_update idleSession moveInput1 [] 0).1 =
      .ISM_STATUS_FAILED_PRECONDITION :=
  ⟨rfl, (update_preconditions ism_modeler_create moveInput1 [] 0).1 rfl,
    by rw [idleSession_eq], by rw [idleSession_eq], by simp [moveInput1],
    (update_preconditions idleSession moveInput1 [] 0).2 defaultTestParams
      (by rw [idleSession_eq]) (by rw [idleSession_eq]) (by simp [moveInput1])⟩

/-- Restore with an empty snapshot slot is the identity. -/
theorem restore_noop_of_saved_none (s : Session) (h : s.saved = none) :
    ism_modeler_restore s = s := by
  unfold ism_modeler_restore
  rw [h]

/-- C7: Restore when no Save has been performed since the last Reset is a
no-op leaving the session unchanged — never a crash: a successful parameterized
Reset clears the snapshot slot, and Restore on an empty slot is the identity. -/
theorem restore_without_save (s t : Session) (p : ism_StrokeModelParams)
    (h : s.saved = none)
    (ht : (ism_modeler_reset_with_params t p).1 = .ISM_STATUS_OK) :
    ism_modeler_restore s = s ∧
    (ism_modeler_reset_with_params t p).2.saved = none ∧
    ism_modeler_restore (ism_modeler_reset_with_params t p).2 =
      (ism_modeler_reset_with_params t p).2 := by
  have h2 : (ism_modeler_reset_with_params t p).2.saved = none := by
    unfold ism_modeler_reset_with_params at ht ⊢
    by_cases hv : validateParams p = true
    · simp [hv]
    · simp [hv] at ht
  exact ⟨restore_noop_of_saved_none s h, h2, restore_noop_of_saved_none _ h2⟩

/-- C7 witness: Restore on a fresh session and on a freshly reset session. -/
theorem restore_without_save_witness :
    ism_modeler_create.saved = none ∧
    (ism_modeler_reset_with_params ism_modeler_create defaultTestParams).1 =
      .ISM_STATUS_OK ∧
    (ism_modeler_restore ism_modeler_create = ism_modeler_create ∧
     (ism_modeler_reset_with_params ism_modeler_create defaultTestParams).2.saved = none ∧
     ism_modeler_restore (ism_modeler_reset_with_params ism_modeler_create
         defaultTestParams).2 =
       (ism_modeler_reset_with_params ism_modeler_create defaultTestParams).2) := by
  have hok : (ism_modeler_reset_with_params ism_modeler_create defaultTestParams).1 =
      .ISM_STATUS_OK := by
    simp [ism_modeler_reset_with_params, validateParams_default]
  exact ⟨rfl, hok,
    restore_without_save ism_modeler_create ism_modeler_create defaultTestParams rfl hok⟩

/-- C8 counterexample: the header's `ism_PredictionKind` carries a third
enumerator, DISABLED; a parameter set selecting it is accepted by parameterized
Reset while selecting neither the stroke-end nor the Kalman strategy, so the
prediction `kind` does not select between exactly two strategies. -/
theorem prediction_kind_not_exactly_two :
    (ism_modeler_reset_with_params ism_modeler_create disabledPredictionParams).1 =
      .ISM_STATUS_OK ∧
    disabledPredictionParams.prediction.kind ≠ .ISM_PREDICTION_STROKE_END ∧
    disabledPredictionParams.prediction.kind ≠ .ISM_PREDICTION_KALMAN := by
  have hv : validateParams disabledPredictionParams = true := by
    norm_num [validateParams, disabledPredictionParams]
  refine ⟨?_, by simp [disabledPredictionParams], by simp [disabledPredictionParams]⟩
  simp [ism_modeler_reset_with_params, hv]

/-- C8 (amended): the prediction parameter `kind` selects among exactly three
mutually exclusive prediction strategies — stroke-end, Kalman and disabled —
and every prediction configuration accepted at Reset time uses one of these
three. -/
theorem prediction_kind_three_strategies (p : ism_StrokeModelParams) :
    (p.prediction.kind = .ISM_PREDICTION_STROKE_END ∨
     p.prediction.kind = .ISM_PREDICTION_KALMAN ∨
     p.prediction.kind = .ISM_PREDICTION_DISABLED) ∧
    (.ISM_PREDICTION_STROKE_END : ism_PredictionKind) ≠ .ISM_PREDICTION_KALMAN ∧
    (.ISM_PREDICTION_STROKE_END : ism_PredictionKind) ≠ .ISM_PREDICTION_DISABLED ∧
    (.ISM_PREDICTION_KALMAN : ism_PredictionKind) ≠ .ISM_PREDICTION_DISABLED := by
  refine ⟨?_, by simp, by simp, by simp⟩
  cases h : p.prediction.kind with
  | ISM_PREDICTION_STROKE_END => exact Or.inl rfl
  | ISM_PREDICTION_KALMAN => exact Or.inr (Or.inl rfl)
  | ISM_PREDICTION_DISABLED => exact Or.inr (Or.inr rfl)

/-- The smoothed target ignores the `kalman` sub-struct. -/
theorem moveTarget_agnostic (p q : ism_StrokeModelParams) (h : kalmanAgnostic p q)
    (st : StrokeState) (inp : ism_Input) : moveTarget p st inp = moveTarget q st inp := by
  unfold moveTarget
  rw [h.2.1]

/-- The wobble window ignores the `kalman` sub-struct. -/
theorem moveWindow_agnostic (p q : ism_StrokeModelParams) (h : kalmanAgnostic p q)
    (st : StrokeState) (inp : ism_Input) : moveWindow p st inp = moveWindow q st inp := by
  unfold moveWindow
  rw [h.2.1]

/-- The step time slice ignores the `kalman` sub-struct. -/
theorem moveDt_agnostic (p q : ism_StrokeModelParams) (h : kalmanAgnostic p q)
    (st : StrokeState) (inp : ism_Input) : moveDt p st inp = moveDt q st inp := by
  unfold moveDt
  rw [h.2.2.2.1]

/-- The move-phase simulation ignores the `kalman` sub-struct. -/
theorem moveSteps_agnostic (p q : ism_StrokeModelParams) (h : kalmanAgnostic p q)
    (st : StrokeState) (inp : ism_Input) : moveSteps p st inp = moveSteps q st inp := by
  unfold moveSteps
  rw [h.2.2.1, moveTarget_agnostic p q h, moveDt_agnostic p q h, h.2.2.2.1]

/-- The end-of-stroke settling ignores the `kalman` sub-struct. -/
theorem upSteps_agnostic (p q : ism_StrokeModelParams) (h : kalmanAgnostic p q)
    (st : StrokeState) (inp : ism_Input) : upSteps p st inp = upSteps q st inp := by
  unfold upSteps
  rw [h.2.2.1, moveTarget_agnostic p q h, moveSteps_agnostic p q h, h.2.2.2.1]

/-- Stylus interpolation ignores the `kalman` sub-struct. -/
theorem resultsFor_agnostic (p q : ism_StrokeModelParams) (h : kalmanAgnostic p q)
    (st : StrokeState) (inp : ism_Input) (states : List PhysState) :
    resultsFor p st inp states = resultsFor q st inp states := by
  unfold resultsFor
  simp only [h.2.2.2.2.1]

/-- With a non-Kalman kind the predictor history is untouched, so it ignores
the `kalman` sub-struct. -/
theorem pushHistory_agnostic (p q : ism_StrokeModelParams) (h : kalmanAgnostic p q)
    (pos : ism_Vec2) (t : ℚ) (hist : List (ism_Vec2 × ℚ)) :
    pushHistory p pos t hist = pushHistory q pos t hist := by
  unfold pushHistory
  rw [← h.2.2.2.2.2]
  rw [if_neg h.1, if_neg h.1]

/-- The per-stroke Update transition ignores the `kalman` sub-struct when the
prediction kind is not Kalman. -/
theorem updateCore_agnostic (p q : ism_StrokeModelParams) (h : kalmanAgnostic p q)
    (b : Bool) (st : StrokeState) (inp : ism_Input) :
    updateCore p b st inp = updateCore q b st inp := by
  unfold updateCore
  simp only [moveSteps_agnostic p q h, upSteps_agnostic p q h, moveWindow_agnostic p q h,
    resultsFor_agnostic p q h, pushHistory_agnostic p q h]

/-- The predictor ignores the `kalman` sub-struct when the prediction kind is
not Kalman. -/
theorem predictCore_agnostic (p q : ism_StrokeModelParams) (h : kalmanAgnostic p q)
    (st : StrokeState) : predictCore p st = predictCore q st := by
  unfold predictCore
  rw [← h.2.2.2.2.2]
  cases hx : p.prediction.kind with
  | ISM_PREDICTION_STROKE_END =>
      dsimp only
      rw [h.2.2.1, h.2.2.2.1]
  | ISM_PREDICTION_KALMAN => exact absurd hx h.1
  | ISM_PREDICTION_DISABLED => rfl

/-- Equal or kalman-agnostic parameters produce identical Update transitions. -/
theorem updateCore_rel (p q : ism_StrokeModelParams) (h : p = q ∨ kalmanAgnostic p q)
    (b : Bool) (st : StrokeState) (inp : ism_Input) :
    updateCore p b st inp = updateCore q b st inp := by
  rcases h with rfl | h
  · rfl
  · exact updateCore_agnostic p q h b st inp

/-- Equal or kalman-agnostic parameters produce identical predictions. -/
theorem predictCore_rel (p q : ism_StrokeModelParams) (h : p = q ∨ kalmanAgnostic p q)
    (st : StrokeState) : predictCore p st = predictCore q st := by
  rcases h with rfl | h
  · rfl
  · exact predictCore_agnostic p q h st

/-- Validation ignores the `kalman` sub-struct. -/
theorem validateParams_agnostic (p q : ism_StrokeModelParams) (h : kalmanAgnostic p q) :
    validateParams p = validateParams q := by
  unfold validateParams
  rw [h.2.2.2.1]

/-- Related sessions have identical Update outcomes and stay related. -/
theorem sessionUpdate_rel (a b : Session) (h : sessRel a b) (x : ism_Input) :
    (sessionUpdate a x).1 = (sessionUpdate b x).1 ∧
    (sessionUpdate a x).2.2 = (sessionUpdate b x).2.2 ∧
    sessRel (sessionUpdate a x).2.1 (sessionUpdate b x).2.1 := by
  obtain ⟨hpar, hin, hst, hsv⟩ := h
  cases ha : a.params with
  | none =>
      cases hb : b.params with
      | none =>
          rw [sessionUpdate_none a x ha, sessionUpdate_none b x hb]
          exact ⟨rfl, rfl, hpar, hin, hst, hsv⟩
      | some q2 =>
          rw [ha, hb] at hpar
          exact absurd hpar (by simp [paramsRel])
  | some p2 =>
      cases hb : b.params with
      | none =>
          rw [ha, hb] at hpar
          exact absurd hpar (by simp [paramsRel])
      | some q2 =>
          have hpq : p2 = q2 ∨ kalmanAgnostic p2 q2 := by
            rw [ha, hb] at hpar
            exact hpar
          rw [sessionUpdate_some a p2 x ha, sessionUpdate_some b q2 x hb]
          dsimp only
          have hu : updateCore p2 a.inStroke a.stroke x =
              updateCore q2 b.inStroke b.stroke x := by
            rw [hin, hst]
            exact updateCore_rel p2 q2 hpq b.inStroke b.stroke x
          rw [hu]
          exact ⟨rfl, rfl, hpq, rfl, rfl, hsv⟩

/-- Related sessions have identical Predict outcomes. -/
theorem sessionPredict_rel (a b : Session) (h : sessRel a b) :
    sessionPredict a = sessionPredict b := by
  obtain ⟨hpar, hin, hst, _⟩ := h
  cases ha : a.params with
  | none =>
      cases hb : b.params with
      | none =>
          unfold sessionPredict
          rw [ha, hb]
      | some q2 =>
          rw [ha, hb] at hpar
          exact absurd hpar (by simp [paramsRel])
  | some p2 =>
      cases hb : b.params with
      | none =>
          rw [ha, hb] at hpar
          exact absurd hpar (by simp [paramsRel])
      | some q2 =>
          have hpq : p2 = q2 ∨ kalmanAgnostic p2 q2 := by
            rw [ha, hb] at hpar
            exact hpar
          unfold sessionPredict
          rw [ha, hb]
          dsimp only
          rw [hin, hst, predictCore_rel p2 q2 hpq b.stroke]

/-- Related sessions produce identical call outputs and stay related under
every call of the session API. -/
theorem callStep_rel (a b : Session) (h : sessRel a b) (c : ism_Call) :
    (callStep a c).2 = (callStep b c).2 ∧ sessRel (callStep a c).1 (callStep b c).1 := by
  cases c with
  | reset_with_params r =>
      unfold callStep ism_modeler_reset_with_params
      dsimp only
      by_cases hv : validateParams r = true
      · rw [if_pos hv, if_pos hv]
        exact ⟨rfl, Or.inl rfl, rfl, rfl, rfl⟩
      · rw [if_neg hv, if_neg hv]
        exact ⟨rfl, h⟩
  | reset =>
      obtain ⟨hpar, hin, hst, hsv⟩ := h
      unfold callStep ism_modeler_reset
      dsimp only
      cases ha : a.params with
      | none =>
          cases hb : b.params with
          | none => exact ⟨rfl, hpar, hin, hst, hsv⟩
          | some q2 =>
              rw [ha, hb] at hpar
              exact absurd hpar (by simp [paramsRel])
      | some p2 =>
          cases hb : b.params with
          | none =>
              rw [ha, hb] at hpar
              exact absurd hpar (by simp [paramsRel])
          | some q2 =>
              rw [ha, hb] at hpar
              exact ⟨rfl, hpar, rfl, rfl, rfl⟩
  | update x =>
      have hr := sessionUpdate_rel a b h x
      unfold callStep
      dsimp only
      exact ⟨by rw [hr.1, hr.2.1], hr.2.2⟩
  | predict =>
      unfold callStep
      dsimp only
      exact ⟨by rw [sessionPredict_rel a b h], h⟩
  | save =>
      obtain ⟨hpar, hin, hst, hsv⟩ := h
      unfold callStep ism_modeler_save
      exact ⟨rfl, hpar, hin, hst, by rw [hin, hst]⟩
  | restore =>
      obtain ⟨hpar, hin, hst, hsv⟩ := h
      unfold callStep ism_modeler_restore
      dsimp only
      rw [hsv]
      cases hb : b.saved with
      | none => exact ⟨rfl, hpar, hin, hst, hsv⟩
      | some bs => exact ⟨rfl, hpar, rfl, rfl, rfl⟩

/-- Unfolding equation of `runCalls` on a first call. -/
theorem runCalls_cons (s : Session) (c : ism_Call) (cs : List ism_Call) :
    runCalls s (c :: cs) =
      ((runCalls (callStep s c).1 cs).1,
        ((callStep s c).2.1, (callStep s c).2.2) :: (runCalls (callStep s c).1 cs).2) := rfl

/-- Related sessions produce identical output lists over any call sequence and
stay related. -/
theorem runCalls_rel (cs : List ism_Call) :
    ∀ a b : Session, sessRel a b →
      (runCalls a cs).2 = (runCalls b cs).2 ∧
      sessRel (runCalls a cs).1 (runCalls b cs).1 := by
  induction cs with
  | nil =>
      intro a b h
      exact ⟨rfl, h⟩
  | cons c cs ih =>
      intro a b h
      have hc := callStep_rel a b h c
      have ht := ih (callStep a c).1 (callStep b c).1 hc.2
      rw [runCalls_cons, runCalls_cons]
      dsimp only
      refine ⟨?_, ht.2⟩
      rw [hc.1, ht.1]

/-- C9: for two parameter sets identical except for the contents of the
`kalman` sub-struct and whose prediction kind is not Kalman, the parameterized
reset status and, over every identical sequence of
Reset/Update/Predict/Save/Restore calls, all statuses, result sequences and
result counts coincide — the `kalman` field is ignored unless the Kalman
strategy is selected. -/
theorem kalman_params_ignored (p q : ism_StrokeModelParams) (h : kalmanAgnostic p q)
    (cs : List ism_Call) :
    (ism_modeler_reset_with_params ism_modeler_create p).1 =
      (ism_modeler_reset_with_params ism_modeler_create q).1 ∧
    (runCalls (ism_modeler_reset_with_params ism_modeler_create p).2 cs).2 =
      (runCalls (ism_modeler_reset_with_params ism_modeler_create q).2 cs).2 ∧
    ((runCalls (ism_modeler_reset_with_params ism_modeler_create p).2 cs).2.map
        (fun o => o.2.length)) =
      ((runCalls (ism_modeler_reset_with_params ism_modeler_create q).2 cs).2.map
        (fun o => o.2.length)) := by
  have hval := validateParams_agnostic p q h
  have hrel : sessRel (ism_modeler_reset_with_params ism_modeler_create p).2
      (ism_modeler_reset_with_params ism_modeler_create q).2 := by
    unfold ism_modeler_reset_with_params
    rw [hval]
    by_cases hv : validateParams q = true
    · rw [if_pos hv, if_pos hv]
      exact ⟨Or.inr h, rfl, rfl, rfl⟩
    · rw [if_neg hv, if_neg hv]
      exact ⟨trivial, rfl, rfl, rfl⟩
  have hout := (runCalls_rel cs _ _ hrel).1
  refine ⟨?_, hout, by rw [hout]⟩
  unfold ism_modeler_reset_with_params
  rw [hval]
  by_cases hv : validateParams q = true
  · rw [if_pos hv, if_pos hv]
  · rw [if_neg hv, if_neg hv]

/-- C9 witness: the two example parameter sets differ exactly in the `kalman`
sub-struct, select stroke-end prediction, and agree on a DOWN-then-Predict
call sequence. -/
theorem kalman_params_ignored_witness :
    kalmanAgnostic defaultTestParams defaultTestParamsAltKalman ∧
    ((ism_modeler_reset_with_params ism_modeler_create defaultTestParams).1 =
       (ism_modeler_reset_with_params ism_modeler_create defaultTestParamsAltKalman).1 ∧
     (runCalls (ism_modeler_reset_with_params ism_modeler_create defaultTestParams).2
         [.update downInput0, .predict]).2 =
       (runCalls (ism_modeler_reset_with_params ism_modeler_create
           defaultTestParamsAltKalman).2 [.update downInput0, .predict]).2 ∧
     ((runCalls (ism_modeler_reset_with_params ism_modeler_create defaultTestParams).2
         [.update downInput0, .predict]).2.map (fun o => o.2.length)) =
       ((runCalls (ism_modeler_reset_with_params ism_modeler_create
           defaultTestParamsAltKalman).2 [.update downInput0, .predict]).2.map
         (fun o => o.2.length))) := by
  have hag : kalmanAgnostic defaultTestParams defaultTestParamsAltKalman :=
    ⟨by simp [defaultTestParams], rfl, rfl, rfl, rfl, rfl⟩
  exact ⟨hag, kalman_params_ignored defaultTestParams defaultTestParamsAltKalman hag
    [.update downInput0, .predict]⟩
